import Mathlib

/-!
# Verification of the HotShot consensus task (`src/crates/task-impls/src/consensus/mod.rs`)

This file gives a shallow embedding of the consensus task's event handler
(`ConsensusTaskState::handle`) and its helpers (`vote_if_able`,
`validate_disperse`, the chain-walk of the `QuorumProposalValidated` arm),
and proves/refutes the spec claims about them.

Modelling conventions:
* View numbers, public keys, commitments, signatures, versions and metadata
  are `Nat`.
* Collaborator interfaces (membership, signature checking, storage success)
  are collected in an `Env` record of abstract functions; the handler itself
  is a pure function `handle : Env → TaskState → HotShotEvent → TaskState × List Output`.
* Side effects (broadcasts on the event bus, application-stream events,
  network poll intents, producer invocations) are collected in the returned
  `List Output`, in the order the source performs them.
* Maps (`saved_leaves`, `vid_shares`, `saved_da_certs`) are association
  lists keyed by `Nat`, with `HashMap`-style insert-replaces semantics.
* The parts of the repository the task calls but that are not under `src/`
  (`Consensus::visit_leaf_ancestors`, `collect_garbage`, `update_view`,
  `handle_quorum_proposal_recv`, `UpgradeCertificate::in_interim`,
  `publish_proposal_if_able`) are modelled from the spec's §4.1/§4.4/§4.5
  descriptions; each such definition carries a `Modelled from the spec:`
  doc comment.
* Signing (`create_signed_vote`) is modelled as always succeeding; metric
  gauges other than `number_of_timeouts` and the payload/`LeafInfo`
  hydration of decided leaves (which no claim mentions) are omitted.
-/

namespace HotShot

/-- A quorum certificate: binds a view number and a leaf commitment
(`QuorumCertificate` / `simple_certificate`). -/
structure QC where
  view : Nat
  leaf_commit : Nat
  deriving Repr, DecidableEq

/-- Data of an upgrade certificate (`UpgradeProposalData`). -/
structure UpgradeCertData where
  new_version : Nat
  old_version_last_view : Nat
  new_version_first_view : Nat
  decide_by : Nat
  deriving Repr, DecidableEq

/-- An upgrade certificate (`UpgradeCertificate`). -/
structure UpgradeCert where
  data : UpgradeCertData
  view_number : Nat
  deriving Repr, DecidableEq

/-- Modelled from the spec: `UpgradeCertificate::in_interim` (hotshot-types,
not under `src/`): whether `v` lies in the interim between the two versions
covered by the certificate ("If a decided upgrade cert covers `V` (`in
interim` between versions)"). -/
def UpgradeCert.inInterim (c : UpgradeCert) (v : Nat) : Bool :=
  c.data.old_version_last_view < v && v < c.data.new_version_first_view

/-- A leaf of the chained-BFT DAG.  `parent_commit` is the commitment of the
parent leaf; leaves are stored in `saved_leaves` keyed by their own
commitment. -/
structure Leaf where
  view : Nat
  parent_commit : Nat
  justify_qc : QC
  upgrade_cert : Option UpgradeCert
  deriving Repr, DecidableEq

/-- A quorum proposal (`QuorumProposal`): view, justify QC, the block
header's payload commitment, and an optional embedded upgrade certificate. -/
structure QuorumProposal where
  view_number : Nat
  justify_qc : QC
  payload_commitment : Nat
  upgrade_certificate : Option UpgradeCert
  deriving Repr, DecidableEq

/-- `Leaf::from_quorum_proposal` (hotshot-types, not under `src/`).
Modelled from the spec: a leaf's parent-commit is the commitment its justify
QC binds ("Justify QC — the QC a proposal or leaf carries to prove its
parent"). -/
def Leaf.from_quorum_proposal (p : QuorumProposal) : Leaf :=
  { view := p.view_number
    parent_commit := p.justify_qc.leaf_commit
    justify_qc := p.justify_qc
    upgrade_cert := p.upgrade_certificate }

/-- A DA certificate (`DACertificate`): view and the payload commitment the
DA committee attested to. -/
structure DACert where
  view_number : Nat
  payload_commit : Nat
  deriving Repr, DecidableEq

/-- A timeout certificate. -/
structure TimeoutCert where
  view_number : Nat
  deriving Repr, DecidableEq

/-- A view-sync finalize certificate. -/
structure ViewSyncCert where
  view_number : Nat
  deriving Repr, DecidableEq

/-- `ViewChangeEvidence`: the `proposal_cert` slot holds either a timeout
certificate or a view-sync finalize certificate. -/
inductive ViewChangeEvidence where
  | timeout (tc : TimeoutCert)
  | viewSync (vsc : ViewSyncCert)
  deriving Repr, DecidableEq

/-- A VID disperse share (`VidDisperseShare`). -/
structure VidDisperse where
  view_number : Nat
  payload_commitment : Nat
  recipient_key : Nat
  deriving Repr, DecidableEq

/-- A signed VID disperse proposal (`Proposal<_, VidDisperseShare>`). -/
structure SignedVidDisperse where
  data : VidDisperse
  signature : Nat
  deriving Repr, DecidableEq

/-- `CommitmentAndMetadata`. -/
structure CommitmentAndMetadata where
  commitment : Nat
  builder_commitment : Nat
  metadata : Nat
  fee : Nat
  block_view : Nat
  deriving Repr, DecidableEq

/-- Association-list lookup with `HashMap::get` semantics (first binding of
the key wins). -/
def lookupA {α : Type} (l : List (Nat × α)) (k : Nat) : Option α :=
  (l.find? (fun e => e.1 == k)).map (fun e => e.2)

/-- Association-list insert with `HashMap::insert` semantics (replaces any
existing binding of the key). -/
def insertA {α : Type} (l : List (Nat × α)) (k : Nat) (v : α) : List (Nat × α) :=
  (k, v) :: l.filter (fun e => e.1 != k)

/-- The shared consensus store (`hotshot_types::consensus::Consensus`):
the fields the task reads or writes, plus the one metric a claim names. -/
structure Consensus where
  locked_view : Nat
  last_decided_view : Nat
  high_qc : QC
  /-- `saved_leaves`: leaf commitment ↦ leaf. -/
  saved_leaves : List (Nat × Leaf)
  /-- `vid_shares`: view ↦ (public key ↦ signed share). -/
  vid_shares : List (Nat × List (Nat × SignedVidDisperse))
  /-- `saved_da_certs`: view ↦ DA certificate. -/
  saved_da_certs : List (Nat × DACert)
  /-- `metrics.number_of_timeouts`. -/
  number_of_timeouts : Nat
  deriving Repr, DecidableEq

/-- The consensus task's own state (`ConsensusTaskState`): the fields the
modelled handler arms read or write. -/
structure TaskState where
  cur_view : Nat
  consensus : Consensus
  payload_commitment_and_metadata : Option CommitmentAndMetadata
  proposal_cert : Option ViewChangeEvidence
  formed_upgrade_certificate : Option UpgradeCert
  decided_upgrade_cert : Option UpgradeCert
  version : Nat
  current_proposal : Option QuorumProposal
  deriving Repr, DecidableEq

/-- The collaborators the task consumes (memberships, signature validation,
the null-block commitment, the leaf hash, and storage success), fixed per
node. -/
structure Env where
  /-- `self.public_key`. -/
  pk : Nat
  /-- `quorum_membership.get_leader`. -/
  leader : Nat → Nat
  /-- `quorum_membership.has_stake(self.public_key)`. -/
  quorumHasStake : Bool
  /-- `timeout_membership.has_stake(self.public_key)`. -/
  timeoutHasStake : Bool
  /-- `quorum_membership.total_nodes()`. -/
  totalNodes : Nat
  /-- `null_block::commitment(n)` (returns `None` below the VID threshold). -/
  nullBlockCommitment : Nat → Option Nat
  /-- `key.validate(signature, payload_commitment)`. -/
  validateSig : Nat → Nat → Nat → Bool
  /-- `committee_membership.get_staked_committee(view)`. -/
  daCommittee : Nat → List Nat
  /-- `cert.is_valid_cert(committee_membership)` for DA certificates. -/
  daCertValid : DACert → Bool
  /-- `cert.is_valid_cert(quorum_membership)` for view-sync certificates. -/
  viewSyncCertValid : ViewSyncCert → Bool
  /-- `commit(leaf)`: the collision-resistant leaf digest. -/
  commitLeaf : Leaf → Nat
  /-- Whether `storage.append_vid(..)` succeeds. -/
  appendVidOk : Bool
  /-- Whether `storage.update_high_qc(..)` succeeds. -/
  updateHighQcOk : Bool

/-- Everything the handler emits: event-bus broadcasts, application-stream
events, network poll intents, producer invocations and sub-task
cancellation, in source order. -/
inductive Output where
  | QuorumVoteSend (view : Nat) (leaf_commit : Nat)
  | TimeoutVoteSend (view : Nat)
  | LeafDecided (leaves : List Leaf)
  | DecideEvent (view : Nat) (qc : QC) (leaf_chain : List Leaf)
  | ViewTimeout (view : Nat)
  | ReplicaViewTimeout (view : Nat)
  | ViewFinished (view : Nat)
  | VersionUpgrade (version : Nat)
  | CancelPollForVotes (view : Nat)
  | CancelPollForProposal (view : Nat)
  | CancelPollForVIDDisperse (view : Nat)
  | CancelPollForDAC (view : Nat)
  | PollForVIDDisperse (view : Nat)
  | PublishProposal (view : Nat)
  | CancelTasksBelow (view : Nat)
  deriving Repr, DecidableEq

/-- `ConsensusTaskState::vote_if_able` (mod.rs lines 172–292), as a pure
function: `some vote` means the vote is broadcast and `true` is returned;
`none` means no broadcast and `false`.  Signing is modelled as always
succeeding; `storage.append_vid` success is `env.appendVidOk`. -/
def vote_if_able (env : Env) (s : TaskState) : Option Output :=
  if !env.quorumHasStake then none
  else
    match s.current_proposal with
    | none => none
    | some proposal =>
      match lookupA s.consensus.vid_shares proposal.view_number with
      | none => none
      | some vid_shares =>
        if (match s.decided_upgrade_cert with
            | some upgrade_cert =>
              upgrade_cert.inInterim s.cur_view &&
                !(some proposal.payload_commitment ==
                    env.nullBlockCommitment env.totalNodes)
            | none => false) then none
        else
          match lookupA s.consensus.saved_da_certs proposal.view_number with
          | none => none
          | some cert =>
            match lookupA s.consensus.saved_leaves proposal.justify_qc.leaf_commit with
            | none => none
            | some parent =>
              if (Leaf.from_quorum_proposal proposal).parent_commit !=
                  env.commitLeaf parent then none
              else if env.daCertValid cert then
                if cert.payload_commit != proposal.payload_commitment then none
                else
                  match lookupA vid_shares env.pk with
                  | some _ =>
                    if env.appendVidOk then
                      some (Output.QuorumVoteSend cert.view_number
                        (env.commitLeaf (Leaf.from_quorum_proposal proposal)))
                    else none
                  | none => none
              else none

/-- `ConsensusTaskState::validate_disperse` (mod.rs lines 296–321): the
share's signature is valid if signed by the view's quorum leader, by this
node, or by any staked DA-committee member. -/
def validate_disperse (env : Env) (disperse : SignedVidDisperse) : Bool :=
  let view := disperse.data.view_number
  let pc := disperse.data.payload_commitment
  env.validateSig (env.leader view) disperse.signature pc ||
    env.validateSig env.pk disperse.signature pc ||
    (env.daCommittee view).any (fun m => env.validateSig m disperse.signature pc)

/-- The mutable variables of the `QuorumProposalValidated` chain walk
(mod.rs lines 391–399), threaded through the ancestor visitor. -/
structure WalkState where
  last_view_number_visited : Nat
  current_chain_length : Nat
  new_locked_view : Nat
  new_commit_reached : Bool
  new_anchor_view : Nat
  new_decide_reached : Bool
  new_decide_qc : Option QC
  leafs_decided : List Leaf
  decided_upgrade_cert : Option UpgradeCert
  deriving Repr, DecidableEq

/-- The `if new_decide_reached` block of the visitor (mod.rs lines 430–477):
adopt or discard an embedded upgrade certificate by its `decide_by`
deadline, and append the leaf to the decided chain.  (`LeafInfo` hydration
and transaction-commitment collection are omitted: no claim mentions
them.) -/
def collectLeaf (pview : Nat) (ws : WalkState) (leaf : Leaf) : WalkState :=
  let ws :=
    match leaf.upgrade_cert with
    | some cert =>
      if cert.data.decide_by < pview then ws
      else { ws with decided_upgrade_cert := some cert }
    | none => ws
  { ws with leafs_decided := ws.leafs_decided ++ [leaf] }

/-- One visitor invocation of the chain walk (the closure at mod.rs lines
409–479).  Returns the updated walk state and whether to continue walking. -/
def visitStep (pview : Nat) (ws : WalkState) (leaf : Leaf) : WalkState × Bool :=
  if ws.new_decide_reached then (collectLeaf pview ws leaf, true)
  else if ws.last_view_number_visited = leaf.view + 1 then
    let ws1 := { ws with
      last_view_number_visited := leaf.view
      current_chain_length := ws.current_chain_length + 1 }
    let ws2 :=
      if ws1.current_chain_length = 2 then
        { ws1 with
          new_locked_view := leaf.view
          new_commit_reached := true
          new_decide_qc := some leaf.justify_qc }
      else if ws1.current_chain_length = 3 then
        { ws1 with
          new_anchor_view := leaf.view
          new_decide_reached := true }
      else ws1
    if ws2.new_decide_reached then (collectLeaf pview ws2 leaf, true)
    else (ws2, true)
  else (ws, false)

/-- Parent-chain traversal by leaf commitment, fuelled by the store size.
Returns the final walk state and `false` when the walk failed (missing
ancestor), mirroring the `Err` of `visit_leaf_ancestors`: the handler only
logs the error, so mutations made before the failure persist. -/
def visitLoop (saved : List (Nat × Leaf)) (term pview : Nat) :
    Nat → WalkState → Nat → WalkState × Bool
  | 0, ws, _ => (ws, false)
  | Nat.succ fuel, ws, c =>
    match lookupA saved c with
    | none => (ws, false)
    | some leaf =>
      if leaf.view ≤ term then (ws, true)
      else
        let r := visitStep pview ws leaf
        if r.2 then visitLoop saved term pview fuel r.1 leaf.parent_commit
        else (r.1, true)

/-- Modelled from the spec: `Consensus::visit_leaf_ancestors` (hotshot-types,
not under `src/`): "walks parent-chain from `from`, invoking
`visitor(leaf, state, delta)` until `terminator` is reached or the visitor
signals stop … Fails if any ancestor is missing", specialised to the
`QuorumProposalValidated` visitor, with terminator `Exclusive(term)` and
`include_from = true`.  The starting leaf is the (unique, by global
invariant 2) stored leaf at view `start`. -/
def visit_leaf_ancestors (saved : List (Nat × Leaf)) (start term pview : Nat)
    (ws : WalkState) : WalkState × Bool :=
  match (saved.find? (fun e => e.2.view == start)).map (fun e => e.2) with
  | none => (ws, false)
  | some leaf =>
    if leaf.view ≤ term then (ws, true)
    else
      let r := visitStep pview ws leaf
      if r.2 then visitLoop saved term pview saved.length r.1 leaf.parent_commit
      else (r.1, true)

/-- Modelled from the spec: `Consensus::collect_garbage` (hotshot-types, not
under `src/`): "drops leaves, payloads, VID shares, DA certs with view
`< new_anchor`, preserving the new-anchor entry". -/
def collect_garbage (c : Consensus) (new_anchor : Nat) : Consensus :=
  { c with
    saved_leaves := c.saved_leaves.filter (fun e => new_anchor ≤ e.2.view)
    vid_shares := c.vid_shares.filter (fun e => new_anchor ≤ e.1)
    saved_da_certs := c.saved_da_certs.filter (fun e => new_anchor ≤ e.1) }

/-- The chain-walk variables as initialised at mod.rs lines 391–402
(`current_chain_length` still 0; it is bumped to 1 just before the walk
when the parent link is consecutive). -/
def initialWalkState (s : TaskState) (proposal : QuorumProposal) : WalkState :=
  { last_view_number_visited := proposal.view_number
    current_chain_length := 0
    new_locked_view := s.consensus.locked_view
    new_commit_reached := false
    new_anchor_view := s.consensus.last_decided_view
    new_decide_reached := false
    new_decide_qc := none
    leafs_decided := []
    decided_upgrade_cert := s.decided_upgrade_cert }

/-- The chain walk of the `QuorumProposalValidated` arm (mod.rs lines
401–483): only a consecutive parent link enters the ancestor walk, with
terminator `Exclusive(last_decided_view)`. -/
def walkFor (s : TaskState) (proposal : QuorumProposal) : WalkState :=
  if proposal.justify_qc.view + 1 = proposal.view_number then
    (visit_leaf_ancestors s.consensus.saved_leaves proposal.justify_qc.view
      s.consensus.last_decided_view proposal.view_number
      { initialWalkState s proposal with current_chain_length := 1 }).1
  else initialWalkState s proposal

/-- The `QuorumProposalValidated` arm (mod.rs lines 387–568): chain walk,
commit/decide application, garbage collection, follow-through proposal and
vote. -/
def handleValidated (env : Env) (s0 : TaskState) (proposal : QuorumProposal) :
    TaskState × List Output :=
  let consensus := s0.consensus
  let s := { s0 with current_proposal := some proposal }
  let ws := walkFor s0 proposal
  let consensus1 :=
    if ws.new_commit_reached then { consensus with locked_view := ws.new_locked_view }
    else consensus
  let decideOuts : List Output :=
    if ws.new_decide_reached then
      [Output.LeafDecided ws.leafs_decided,
       Output.DecideEvent consensus1.last_decided_view
         (ws.new_decide_qc.getD { view := 0, leaf_commit := 0 }) ws.leafs_decided]
    else []
  let consensus2 :=
    if ws.new_decide_reached then
      { collect_garbage consensus1 ws.new_anchor_view with
        last_decided_view := ws.new_anchor_view }
    else consensus1
  let s := { s with consensus := consensus2, decided_upgrade_cert := ws.decided_upgrade_cert }
  let new_view := proposal.view_number + 1
  let should_propose :=
    env.leader new_view == env.pk && consensus2.high_qc.view == proposal.view_number
  let cancelOuts : List Output :=
    if ws.new_decide_reached then [Output.CancelTasksBelow ws.new_anchor_view] else []
  let proposeOuts : List Output :=
    if should_propose then [Output.PublishProposal (consensus2.high_qc.view + 1)] else []
  match vote_if_able env s with
  | some o =>
    ({ s with current_proposal := none }, decideOuts ++ cancelOuts ++ proposeOuts ++ [o])
  | none => (s, decideOuts ++ cancelOuts ++ proposeOuts)

/-- The events of `HotShotEvent` routed by the modelled arms of
`ConsensusTaskState::handle`.  The `QuorumVoteRecv`/`TimeoutVoteRecv`
accumulator arms (which never touch the store or emit votes) and `Shutdown`
are outside the model's scope.  `QuorumProposalRecv` carries the result of
the external collaborator `handle_quorum_proposal_recv`
(`proposal_helpers`, not under `src/`), modelled from the spec: "Validate
via collaborator; on success store as `current_proposal` and try
`vote_if_able`" — `none` for `Ok(None)`/`Err`, `some cp` for
`Ok(Some(cp))`. -/
inductive HotShotEvent where
  | QuorumProposalRecv (p : QuorumProposal) (helper_result : Option QuorumProposal)
  | QuorumProposalValidated (p : QuorumProposal)
  | QCFormedLeft (qc : QC)
  | QCFormedRight (tc : TimeoutCert)
  | UpgradeCertificateFormed (cert : UpgradeCert)
  | DACertificateRecv (cert : DACert)
  | VIDShareRecv (disperse : SignedVidDisperse)
  | ViewChange (new_view : Nat)
  | Timeout (view : Nat)
  | SendPayloadCommitmentAndMetadata (payload_commitment builder_commitment metadata view fee : Nat)
  | ViewSyncFinalizeCertificate2Recv (certificate : ViewSyncCert)
  deriving Repr, DecidableEq

/-- The `Timeout` arm (mod.rs lines 866–924). -/
def handleTimeout (env : Env) (s : TaskState) (view : Nat) : TaskState × List Output :=
  if view ≤ s.cur_view then (s, [])
  else if !env.timeoutHasStake then (s, [])
  else
    ({ s with consensus :=
        { s.consensus with number_of_timeouts := s.consensus.number_of_timeouts + 1 } },
     [Output.CancelPollForVotes view,
      Output.CancelPollForProposal view,
      Output.TimeoutVoteSend view,
      Output.ViewTimeout view,
      Output.ReplicaViewTimeout view])

/-- The `ViewChange` arm (mod.rs lines 797–865).  `update_view`
(`view_change.rs`, not under `src/`) is modelled from the spec:
"`update_view(new_view)` is idempotent for `new_view ≤ cur_view`" —
it errs (and the arm returns without emitting `ViewFinished`) when
`new_view ≤ cur_view`, else assigns `cur_view := new_view`; its poll,
timer and bus-echo side effects are omitted (no claim mentions them). -/
def handleViewChange (env : Env) (s : TaskState) (new_view : Nat) :
    TaskState × List Output :=
  let _ := env
  let old_view_number := s.cur_view
  let outs0 : List Output := [Output.PollForVIDDisperse (old_view_number + 1)]
  let upgraded :=
    match s.decided_upgrade_cert with
    | some cert =>
      if new_view = cert.data.new_version_first_view then
        ({ s with version := cert.data.new_version },
         [Output.VersionUpgrade cert.data.new_version])
      else (s, ([] : List Output))
    | none => (s, [])
  let s1 := upgraded.1
  let s2 :=
    match s1.payload_commitment_and_metadata with
    | some commitment_and_metadata =>
      if commitment_and_metadata.block_view < old_view_number then
        { s1 with payload_commitment_and_metadata := none }
      else s1
    | none => s1
  if new_view ≤ s2.cur_view then (s2, outs0 ++ upgraded.2)
  else
    ({ s2 with cur_view := new_view },
     outs0 ++ upgraded.2 ++ [Output.ViewFinished old_view_number])

/-- The `VIDShareRecv` arm (mod.rs lines 752–796). -/
def handleVidShare (env : Env) (s : TaskState) (disperse : SignedVidDisperse) :
    TaskState × List Output :=
  let view := disperse.data.view_number
  if view + 1 < s.cur_view then (s, [])
  else if !validate_disperse env disperse then (s, [])
  else
    let inner := (lookupA s.consensus.vid_shares view).getD []
    let inner1 := insertA inner disperse.data.recipient_key disperse
    let c1 := { s.consensus with vid_shares := insertA s.consensus.vid_shares view inner1 }
    let s1 := { s with consensus := c1 }
    if disperse.data.recipient_key != env.pk then (s1, [])
    else
      let outs := [Output.CancelPollForVIDDisperse view]
      match vote_if_able env s1 with
      | some o => ({ s1 with current_proposal := none }, outs ++ [o])
      | none => (s1, outs)

/-- `ConsensusTaskState::handle` (mod.rs lines 366–1004) over the modelled
events.  `publish_proposal` invocations (the Producer,
`publish_proposal_if_able` in `proposal_helpers`, not under `src/`) are
recorded as `Output.PublishProposal target_view`. -/
def handle (env : Env) (s : TaskState) (event : HotShotEvent) : TaskState × List Output :=
  match event with
  | .QuorumProposalRecv _ helper_result =>
    match helper_result with
    | some current_proposal =>
      let s1 := { s with current_proposal := some current_proposal }
      match vote_if_able env s1 with
      | some o => ({ s1 with current_proposal := none }, [o])
      | none => (s1, [])
    | none => (s, [])
  | .QuorumProposalValidated p => handleValidated env s p
  | .QCFormedLeft qc =>
    -- `update_high_qc` failure is only logged (mod.rs lines 686–689); the
    -- assignment and the proposal attempt happen regardless.
    let s1 := { s with consensus := { s.consensus with high_qc := qc } }
    (s1, [Output.CancelPollForVotes qc.view, Output.PublishProposal (qc.view + 1)])
  | .QCFormedRight tc =>
    let s1 := { s with proposal_cert := some (ViewChangeEvidence.timeout tc) }
    (s1, [Output.CancelPollForVotes tc.view_number,
          Output.PublishProposal (tc.view_number + 1)])
  | .UpgradeCertificateFormed cert =>
    if s.cur_view + 3 ≤ cert.data.decide_by then
      ({ s with formed_upgrade_certificate := some cert }, [])
    else (s, [])
  | .DACertificateRecv cert =>
    let view := cert.view_number
    let s1 := { s with consensus :=
      { s.consensus with saved_da_certs := insertA s.consensus.saved_da_certs view cert } }
    let outs := [Output.CancelPollForDAC view, Output.CancelPollForVotes view]
    match vote_if_able env s1 with
    | some o => ({ s1 with current_proposal := none }, outs ++ [o])
    | none => (s1, outs)
  | .VIDShareRecv disperse => handleVidShare env s disperse
  | .ViewChange new_view => handleViewChange env s new_view
  | .Timeout view => handleTimeout env s view
  | .SendPayloadCommitmentAndMetadata payload_commitment builder_commitment metadata view fee =>
    let cm : CommitmentAndMetadata :=
      { commitment := payload_commitment
        builder_commitment := builder_commitment
        metadata := metadata
        fee := fee
        block_view := view }
    let s1 := { s with payload_commitment_and_metadata := some cm }
    let outs1 : List Output :=
      if env.leader view == env.pk && s.consensus.high_qc.view + 1 == view then
        [Output.PublishProposal view]
      else []
    let outs2 : List Output :=
      match s1.proposal_cert with
      | some (ViewChangeEvidence.timeout tc) =>
        if env.leader (tc.view_number + 1) == env.pk then [Output.PublishProposal view]
        else []
      | some (ViewChangeEvidence.viewSync vsc) =>
        if env.leader vsc.view_number == env.pk then [Output.PublishProposal view]
        else []
      | none => []
    (s1, outs1 ++ outs2)
  | .ViewSyncFinalizeCertificate2Recv certificate =>
    if !env.viewSyncCertValid certificate then (s, [])
    else
      let s1 := { s with proposal_cert := some (ViewChangeEvidence.viewSync certificate) }
      let view := certificate.view_number
      let outs := [Output.CancelPollForVotes (view - 1)]
      if env.leader view == env.pk then (s1, outs ++ [Output.PublishProposal view])
      else (s1, outs)

/-- A list of events dispatched in order, accumulating outputs. -/
def handleAll (env : Env) (s : TaskState) (events : List HotShotEvent) :
    TaskState × List Output :=
  events.foldl (fun acc e =>
    let r := handle env acc.1 e
    (r.1, acc.2 ++ r.2)) (s, [])

/-- Is this output a `QuorumVoteSend` broadcast? -/
def Output.isQuorumVote : Output → Bool
  | .QuorumVoteSend _ _ => true
  | _ => false

/-- Is this output a `QuorumVoteSend` broadcast for view `v`? -/
def Output.isQuorumVoteFor (v : Nat) : Output → Bool
  | .QuorumVoteSend view _ => view == v
  | _ => false

/-- Is this output a `LeafDecided` or `Decide` emission? -/
def Output.isDecideLike : Output → Bool
  | .LeafDecided _ => true
  | .DecideEvent _ _ _ => true
  | _ => false

/-- Is this output a Producer invocation? -/
def Output.isPublish : Output → Bool
  | .PublishProposal _ => true
  | _ => false

/-! ## Helper lemmas about the chain walk -/

theorem lookupA_insertA_self {α : Type} (l : List (Nat × α)) (k : Nat) (v : α) :
    lookupA (insertA l k v) k = some v := by
  simp [lookupA, insertA, List.find?_cons]

theorem collectLeaf_core (p : Nat) (ws : WalkState) (l : Leaf) :
    (collectLeaf p ws l).current_chain_length = ws.current_chain_length ∧
    (collectLeaf p ws l).last_view_number_visited = ws.last_view_number_visited ∧
    (collectLeaf p ws l).new_locked_view = ws.new_locked_view ∧
    (collectLeaf p ws l).new_commit_reached = ws.new_commit_reached ∧
    (collectLeaf p ws l).new_anchor_view = ws.new_anchor_view ∧
    (collectLeaf p ws l).new_decide_reached = ws.new_decide_reached ∧
    (collectLeaf p ws l).new_decide_qc = ws.new_decide_qc := by
  unfold collectLeaf
  cases h : l.upgrade_cert with
  | none => simp
  | some cert => by_cases hd : cert.data.decide_by < p <;> simp [hd]

theorem collectLeaf_anchor (p : Nat) (ws : WalkState) (l : Leaf) :
    (collectLeaf p ws l).new_anchor_view = ws.new_anchor_view :=
  (collectLeaf_core p ws l).2.2.2.2.1

theorem collectLeaf_decide (p : Nat) (ws : WalkState) (l : Leaf) :
    (collectLeaf p ws l).new_decide_reached = ws.new_decide_reached :=
  (collectLeaf_core p ws l).2.2.2.2.2.1

theorem visitStep_of_decide (p : Nat) (ws : WalkState) (l : Leaf)
    (h : ws.new_decide_reached = true) :
    visitStep p ws l = (collectLeaf p ws l, true) := by
  simp [visitStep, h]

theorem visitLoop_succ_eq (saved : List (Nat × Leaf)) (term pview fuel : Nat)
    (ws : WalkState) (c : Nat) :
    visitLoop saved term pview (fuel + 1) ws c =
      match lookupA saved c with
      | none => (ws, false)
      | some leaf =>
        if leaf.view ≤ term then (ws, true)
        else
          let r := visitStep pview ws leaf
          if r.2 then visitLoop saved term pview fuel r.1 leaf.parent_commit
          else (r.1, true) := rfl

/-- Once the walk has reached a decide, the decision-carrying fields of the
walk state are frozen: further ancestors only extend the decided leaf chain
(and possibly the decided upgrade certificate). -/
theorem visitLoop_decide_frozen (saved : List (Nat × Leaf)) (term pview : Nat) :
    ∀ (fuel c : Nat) (ws : WalkState), ws.new_decide_reached = true →
      (visitLoop saved term pview fuel ws c).1.new_decide_reached = true ∧
      (visitLoop saved term pview fuel ws c).1.new_anchor_view = ws.new_anchor_view ∧
      (visitLoop saved term pview fuel ws c).1.new_commit_reached = ws.new_commit_reached ∧
      (visitLoop saved term pview fuel ws c).1.new_locked_view = ws.new_locked_view ∧
      (visitLoop saved term pview fuel ws c).1.new_decide_qc = ws.new_decide_qc := by
  intro fuel
  induction fuel with
  | zero => intro c ws h; simp [visitLoop, h]
  | succ n ih =>
    intro c ws h
    rw [visitLoop_succ_eq]
    cases hl : lookupA saved c with
    | none => simp [h]
    | some leaf =>
      by_cases hv : leaf.view ≤ term
      · simp [hv, h]
      · have hc := collectLeaf_core pview ws leaf
        have hrec := ih leaf.parent_commit (collectLeaf pview ws leaf)
          (by rw [hc.2.2.2.2.2.1]; exact h)
        simp only [hv, if_false, visitStep_of_decide pview ws leaf h]
        rw [if_pos trivial]
        refine ⟨hrec.1, ?_, ?_, ?_, ?_⟩
        · rw [hrec.2.1, hc.2.2.2.2.1]
        · rw [hrec.2.2.1, hc.2.2.2.1]
        · rw [hrec.2.2.2.1, hc.2.2.1]
        · rw [hrec.2.2.2.2, hc.2.2.2.2.2.2]

/-- Once the walk has reached chain length 2 (the commit point), the
commit-carrying fields of the walk state are frozen for the rest of the
walk, whatever happens further down the ancestor chain. -/
theorem visitLoop_commit_frozen (saved : List (Nat × Leaf)) (term pview fuel c : Nat)
    (ws : WalkState)
    (hcommit : ws.new_commit_reached = true)
    (hstate : ws.new_decide_reached = true ∨
      (ws.new_decide_reached = false ∧ ws.current_chain_length = 2)) :
    (visitLoop saved term pview fuel ws c).1.new_commit_reached = true ∧
    (visitLoop saved term pview fuel ws c).1.new_locked_view = ws.new_locked_view ∧
    (visitLoop saved term pview fuel ws c).1.new_decide_qc = ws.new_decide_qc := by
  rcases hstate with hd | ⟨hd, hcl⟩
  · have h := visitLoop_decide_frozen saved term pview fuel c ws hd
    exact ⟨by rw [h.2.2.1, hcommit], h.2.2.2.1, h.2.2.2.2⟩
  · cases fuel with
    | zero => simp [visitLoop, hcommit]
    | succ n =>
      rw [visitLoop_succ_eq]
      cases hl : lookupA saved c with
      | none => simp [hcommit]
      | some leaf =>
        by_cases hv : leaf.view ≤ term
        · simp [hv, hcommit]
        · by_cases hcons : ws.last_view_number_visited = leaf.view + 1
          · have hstep : visitStep pview ws leaf =
                (collectLeaf pview
                  { ws with
                    last_view_number_visited := leaf.view
                    current_chain_length := ws.current_chain_length + 1
                    new_anchor_view := leaf.view
                    new_decide_reached := true } leaf, true) := by
              simp [visitStep, hd, hcons, hcl]
            have hcol := collectLeaf_core pview
              { ws with
                last_view_number_visited := leaf.view
                current_chain_length := ws.current_chain_length + 1
                new_anchor_view := leaf.view
                new_decide_reached := true } leaf
            have hrec := visitLoop_decide_frozen saved term pview n leaf.parent_commit
              (collectLeaf pview
                { ws with
                  last_view_number_visited := leaf.view
                  current_chain_length := ws.current_chain_length + 1
                  new_anchor_view := leaf.view
                  new_decide_reached := true } leaf)
              (by rw [hcol.2.2.2.2.2.1])
            simp only [hv, if_false, hstep]
            rw [if_pos trivial]
            refine ⟨?_, ?_, ?_⟩
            · rw [hrec.2.2.1, hcol.2.2.2.1]; exact hcommit
            · rw [hrec.2.2.2.1, hcol.2.2.1]
            · rw [hrec.2.2.2.2, hcol.2.2.2.2.2.2]
          · have hstep : visitStep pview ws leaf = (ws, false) := by
              simp [visitStep, hd, hcons]
            simp [hv, hstep, hcommit]

/-- A leaf's view is only written into `new_anchor_view` after passing the
exclusive terminator check, so the anchor never falls below the old one. -/
theorem visitStep_anchor (p : Nat) (ws : WalkState) (leaf : Leaf) :
    (visitStep p ws leaf).1.new_anchor_view = ws.new_anchor_view ∨
    (visitStep p ws leaf).1.new_anchor_view = leaf.view := by
  unfold visitStep
  by_cases hd : ws.new_decide_reached = true
  · simp [hd, collectLeaf_anchor]
  · by_cases hcons : ws.last_view_number_visited = leaf.view + 1
    · by_cases h2 : ws.current_chain_length + 1 = 2
      · simp [hd, hcons, h2]
      · by_cases h3 : ws.current_chain_length + 1 = 3
        · simp [hd, hcons, h2, h3, collectLeaf_anchor]
        · simp [hd, hcons, h2, h3]
    · simp [hd, hcons]

theorem visitLoop_anchor_le (saved : List (Nat × Leaf)) (term pview : Nat) :
    ∀ (fuel c : Nat) (ws : WalkState), term ≤ ws.new_anchor_view →
      term ≤ (visitLoop saved term pview fuel ws c).1.new_anchor_view := by
  intro fuel
  induction fuel with
  | zero => intro c ws h; simpa [visitLoop] using h
  | succ n ih =>
    intro c ws h
    rw [visitLoop_succ_eq]
    cases hl : lookupA saved c with
    | none => simpa using h
    | some leaf =>
      by_cases hv : leaf.view ≤ term
      · simpa [hv] using h
      · have ha : term ≤ (visitStep pview ws leaf).1.new_anchor_view := by
          rcases visitStep_anchor pview ws leaf with h1 | h1
          · rw [h1]; exact h
          · rw [h1]; exact Nat.le_of_lt (Nat.lt_of_not_le hv)
        simp only [hv, if_false]
        cases hr : (visitStep pview ws leaf).2 with
        | true => simpa [hr] using ih leaf.parent_commit (visitStep pview ws leaf).1 ha
        | false => simpa [hr] using ha

theorem visit_anchor_le (saved : List (Nat × Leaf)) (start term pview : Nat)
    (ws0 : WalkState) (h : term ≤ ws0.new_anchor_view) :
    term ≤ (visit_leaf_ancestors saved start term pview ws0).1.new_anchor_view := by
  unfold visit_leaf_ancestors
  cases hf : (saved.find? (fun x => x.2.view == start)).map (fun x => x.2) with
  | none => simpa using h
  | some leaf =>
    by_cases hv : leaf.view ≤ term
    · simpa [hv] using h
    · have ha : term ≤ (visitStep pview ws0 leaf).1.new_anchor_view := by
        rcases visitStep_anchor pview ws0 leaf with h1 | h1
        · rw [h1]; exact h
        · rw [h1]; exact Nat.le_of_lt (Nat.lt_of_not_le hv)
      simp only [hv, if_false]
      cases hr : (visitStep pview ws0 leaf).2 with
      | true =>
        simpa [hr] using
          visitLoop_anchor_le saved term pview saved.length leaf.parent_commit
            (visitStep pview ws0 leaf).1 ha
      | false => simpa [hr] using ha

/-- Entry case: the starting leaf (view `start`) is missing: the walk fails
without touching the walk state. -/
theorem walk_start_missing (saved : List (Nat × Leaf)) (start term pview : Nat)
    (ws0 : WalkState) (hf : saved.find? (fun x => x.2.view == start) = none) :
    visit_leaf_ancestors saved start term pview ws0 = (ws0, false) := by
  unfold visit_leaf_ancestors
  rw [hf]
  rfl

/-- Entry case: the starting leaf sits at or below the exclusive terminator:
the walk stops at once without touching the walk state. -/
theorem walk_start_terminated (saved : List (Nat × Leaf)) (start term pview : Nat)
    (ws0 : WalkState) (e : Nat × Leaf)
    (hf : saved.find? (fun x => x.2.view == start) = some e)
    (hterm : e.2.view ≤ term) :
    visit_leaf_ancestors saved start term pview ws0 = (ws0, true) := by
  unfold visit_leaf_ancestors
  rw [hf]
  simp [hterm]

/-- With a consecutive parent link and the parent stored above the old
anchor, the walk reaches chain length 2 at the parent and the commit fields
are set (and stay set no matter how the rest of the walk goes). -/
theorem walk_commit (saved : List (Nat × Leaf)) (start term pview : Nat)
    (ws0 : WalkState) (e : Nat × Leaf)
    (hf : saved.find? (fun x => x.2.view == start) = some e)
    (hterm : term < e.2.view)
    (hd : ws0.new_decide_reached = false)
    (hlv : ws0.last_view_number_visited = e.2.view + 1)
    (hcl : ws0.current_chain_length = 1) :
    (visit_leaf_ancestors saved start term pview ws0).1.new_commit_reached = true ∧
    (visit_leaf_ancestors saved start term pview ws0).1.new_locked_view = e.2.view ∧
    (visit_leaf_ancestors saved start term pview ws0).1.new_decide_qc =
      some e.2.justify_qc := by
  unfold visit_leaf_ancestors
  rw [hf]
  have hstep : visitStep pview ws0 e.2 =
      ({ ws0 with
          last_view_number_visited := e.2.view
          current_chain_length := 2
          new_locked_view := e.2.view
          new_commit_reached := true
          new_decide_qc := some e.2.justify_qc }, true) := by
    simp [visitStep, hd, hlv, hcl]
  simp only [Option.map_some', if_neg (Nat.not_le.mpr hterm), hstep]
  rw [if_pos trivial]
  have := visitLoop_commit_frozen saved term pview saved.length e.2.parent_commit
    { ws0 with
        last_view_number_visited := e.2.view
        current_chain_length := 2
        new_locked_view := e.2.view
        new_commit_reached := true
        new_decide_qc := some e.2.justify_qc }
    rfl (Or.inr ⟨hd, rfl⟩)
  exact ⟨this.1, this.2.1, this.2.2⟩

/-- With a consecutive parent link, the parent stored above the old anchor,
and a consecutive stored grandparent also above the old anchor, the walk
reaches chain length 3 at the grandparent and the decide fields are set. -/
theorem walk_decide (saved : List (Nat × Leaf)) (start term pview : Nat)
    (ws0 : WalkState) (e : Nat × Leaf) (a3 : Leaf)
    (hf : saved.find? (fun x => x.2.view == start) = some e)
    (hterm : term < e.2.view)
    (hd : ws0.new_decide_reached = false)
    (hlv : ws0.last_view_number_visited = e.2.view + 1)
    (hcl : ws0.current_chain_length = 1)
    (ha3 : lookupA saved e.2.parent_commit = some a3)
    (ha3v : a3.view + 1 = e.2.view)
    (ha3t : term < a3.view) :
    (visit_leaf_ancestors saved start term pview ws0).1.new_decide_reached = true ∧
    (visit_leaf_ancestors saved start term pview ws0).1.new_anchor_view = a3.view ∧
    (visit_leaf_ancestors saved start term pview ws0).1.new_commit_reached = true ∧
    (visit_leaf_ancestors saved start term pview ws0).1.new_locked_view = e.2.view ∧
    (visit_leaf_ancestors saved start term pview ws0).1.new_decide_qc =
      some e.2.justify_qc := by
  obtain ⟨n, hn⟩ : ∃ n, saved.length = n + 1 := by
    have hmem : e ∈ saved := List.mem_of_find?_eq_some hf
    cases hsl : saved.length with
    | zero =>
      exact absurd hsl (Nat.pos_iff_ne_zero.mp
        (List.length_pos.mpr (List.ne_nil_of_mem hmem)))
    | succ m => exact ⟨m, rfl⟩
  unfold visit_leaf_ancestors
  rw [hf]
  have hstep : visitStep pview ws0 e.2 =
      ({ ws0 with
          last_view_number_visited := e.2.view
          current_chain_length := 2
          new_locked_view := e.2.view
          new_commit_reached := true
          new_decide_qc := some e.2.justify_qc }, true) := by
    simp [visitStep, hd, hlv, hcl]
  simp only [Option.map_some', if_neg (Nat.not_le.mpr hterm), hstep]
  rw [if_pos trivial, hn, visitLoop_succ_eq, ha3]
  have hstep2 : visitStep pview
      { ws0 with
          last_view_number_visited := e.2.view
          current_chain_length := 2
          new_locked_view := e.2.view
          new_commit_reached := true
          new_decide_qc := some e.2.justify_qc } a3 =
      (collectLeaf pview
        { ws0 with
            last_view_number_visited := a3.view
            current_chain_length := 3
            new_locked_view := e.2.view
            new_commit_reached := true
            new_anchor_view := a3.view
            new_decide_reached := true
            new_decide_qc := some e.2.justify_qc } a3, true) := by
    simp [visitStep, hd, ha3v]
  simp only [if_neg (Nat.not_le.mpr ha3t), hstep2]
  rw [if_pos trivial]
  have hcol := collectLeaf_core pview
    { ws0 with
        last_view_number_visited := a3.view
        current_chain_length := 3
        new_locked_view := e.2.view
        new_commit_reached := true
        new_anchor_view := a3.view
        new_decide_reached := true
        new_decide_qc := some e.2.justify_qc } a3
  have hrec := visitLoop_decide_frozen saved term pview n a3.parent_commit
    (collectLeaf pview
      { ws0 with
          last_view_number_visited := a3.view
          current_chain_length := 3
          new_locked_view := e.2.view
          new_commit_reached := true
          new_anchor_view := a3.view
          new_decide_reached := true
          new_decide_qc := some e.2.justify_qc } a3)
    (by rw [hcol.2.2.2.2.2.1])
  refine ⟨hrec.1, ?_, ?_, ?_, ?_⟩
  · rw [hrec.2.1, hcol.2.2.2.2.1]
  · rw [hrec.2.2.1, hcol.2.2.2.1]
  · rw [hrec.2.2.2.1, hcol.2.2.1]
  · rw [hrec.2.2.2.2, hcol.2.2.2.2.2.2]

/-! ## Lemmas about the `QuorumProposalValidated` handler -/

theorem mem_ite_singleton {α : Type} {c : Prop} [Decidable c] {x o : α}
    (h : o ∈ (if c then [x] else ([] : List α))) : o = x := by
  split at h
  · simpa using h
  · simp at h

/-- The only thing `vote_if_able` ever returns in its `some` case is a
`QuorumVoteSend` broadcast. -/
theorem vote_shape (env : Env) (s : TaskState) (o : Output)
    (h : vote_if_able env s = some o) : ∃ v lc, o = Output.QuorumVoteSend v lc := by
  unfold vote_if_able at h
  repeat' split at h
  all_goals first
    | exact Option.noConfusion h
    | (injection h with h; exact ⟨_, _, h.symm⟩)

theorem walkFor_of_consecutive (s0 : TaskState) (p : QuorumProposal)
    (hv : p.justify_qc.view + 1 = p.view_number) :
    walkFor s0 p =
      (visit_leaf_ancestors s0.consensus.saved_leaves p.justify_qc.view
        s0.consensus.last_decided_view p.view_number
        { initialWalkState s0 p with current_chain_length := 1 }).1 := by
  simp [walkFor, hv]

theorem walkFor_anchor_le (s0 : TaskState) (p : QuorumProposal) :
    s0.consensus.last_decided_view ≤ (walkFor s0 p).new_anchor_view := by
  unfold walkFor
  split
  · exact visit_anchor_le _ _ _ _ _ (Nat.le_refl _)
  · simp [initialWalkState]

/-- When the walk reaches neither commit nor decide, the handler leaves
`locked_view` and `last_decided_view` unchanged and emits no `LeafDecided`
or `Decide`. -/
theorem handleValidated_noop (env : Env) (s0 : TaskState) (p : QuorumProposal)
    (hcom : (walkFor s0 p).new_commit_reached = false)
    (hdec : (walkFor s0 p).new_decide_reached = false) :
    (handleValidated env s0 p).1.consensus.locked_view = s0.consensus.locked_view ∧
    (handleValidated env s0 p).1.consensus.last_decided_view =
      s0.consensus.last_decided_view ∧
    ∀ o ∈ (handleValidated env s0 p).2, o.isDecideLike = false := by
  unfold handleValidated
  simp only [hcom, hdec, if_false, Bool.false_eq_true]
  split
  · rename_i o heq
    refine ⟨rfl, rfl, ?_⟩
    intro x hx
    obtain ⟨v, lc, rfl⟩ := vote_shape env _ o heq
    simp only [List.nil_append, List.mem_append, List.mem_singleton] at hx
    rcases hx with hx | hx
    · rw [mem_ite_singleton hx]; rfl
    · rw [hx]; rfl
  · refine ⟨rfl, rfl, ?_⟩
    intro x hx
    simp only [List.nil_append] at hx
    rw [mem_ite_singleton hx]; rfl

/-- When the walk reaches commit, the handler assigns
`locked_view := new_locked_view`. -/
theorem handleValidated_commit (env : Env) (s0 : TaskState) (p : QuorumProposal)
    (hcom : (walkFor s0 p).new_commit_reached = true) :
    (handleValidated env s0 p).1.consensus.locked_view =
      (walkFor s0 p).new_locked_view := by
  unfold handleValidated
  simp only [hcom, if_true]
  repeat' split
  all_goals rfl

/-- When the walk reaches decide, the handler publishes `LeafDecided` and
the application `Decide` event (carrying the recorded decide QC and the old
anchor as its view number), garbage-collects to the new anchor and assigns
`last_decided_view := new_anchor_view`. -/
theorem handleValidated_decide (env : Env) (s0 : TaskState) (p : QuorumProposal)
    (hdec : (walkFor s0 p).new_decide_reached = true) :
    (handleValidated env s0 p).1.consensus.last_decided_view =
      (walkFor s0 p).new_anchor_view ∧
    Output.LeafDecided (walkFor s0 p).leafs_decided ∈ (handleValidated env s0 p).2 ∧
    Output.DecideEvent s0.consensus.last_decided_view
      ((walkFor s0 p).new_decide_qc.getD { view := 0, leaf_commit := 0 })
      (walkFor s0 p).leafs_decided ∈ (handleValidated env s0 p).2 ∧
    (∀ x ∈ (handleValidated env s0 p).1.consensus.saved_leaves,
      (walkFor s0 p).new_anchor_view ≤ x.2.view) ∧
    (∀ x ∈ (handleValidated env s0 p).1.consensus.vid_shares,
      (walkFor s0 p).new_anchor_view ≤ x.1) ∧
    (∀ x ∈ (handleValidated env s0 p).1.consensus.saved_da_certs,
      (walkFor s0 p).new_anchor_view ≤ x.1) := by
  unfold handleValidated
  simp only [hdec, if_true]
  repeat' split
  all_goals refine ⟨rfl, by simp, by simp, ?_, ?_, ?_⟩
  all_goals intro x hx
  all_goals simp only [collect_garbage, List.mem_filter] at hx
  all_goals exact of_decide_eq_true hx.2

/-- `ViewChange` either leaves `cur_view` alone (the modelled `update_view`
errs for `new_view ≤ cur_view`) or advances it to the strictly larger
`new_view`. -/
theorem handleViewChange_cur_view (env : Env) (s : TaskState) (nv : Nat) :
    (handleViewChange env s nv).1.cur_view = s.cur_view ∨
    (¬ nv ≤ s.cur_view ∧ (handleViewChange env s nv).1.cur_view = nv) := by
  cases hdu : s.decided_upgrade_cert with
  | none =>
    cases hcm : s.payload_commitment_and_metadata with
    | none =>
      by_cases hfin : nv ≤ s.cur_view
      · exact Or.inl (by simp [handleViewChange, hdu, hcm, hfin])
      · exact Or.inr ⟨hfin, by simp [handleViewChange, hdu, hcm, hfin]⟩
    | some cm2 =>
      by_cases hlt : cm2.block_view < s.cur_view <;>
        by_cases hfin : nv ≤ s.cur_view
      · exact Or.inl (by simp [handleViewChange, hdu, hcm, if_pos hlt, hfin])
      · exact Or.inr ⟨hfin, by simp [handleViewChange, hdu, hcm, if_pos hlt, hfin]⟩
      · exact Or.inl (by simp [handleViewChange, hdu, hcm, if_neg hlt, hfin])
      · exact Or.inr ⟨hfin, by simp [handleViewChange, hdu, hcm, if_neg hlt, hfin]⟩
  | some c =>
    by_cases hnv : nv = c.data.new_version_first_view
    · cases hcm : s.payload_commitment_and_metadata with
      | none =>
        by_cases hfin : nv ≤ s.cur_view
        · exact Or.inl (by simp [handleViewChange, hdu, hcm, hnv, hnv ▸ hfin])
        · exact Or.inr ⟨hfin, by simp [handleViewChange, hdu, hcm, hnv, hnv ▸ hfin]⟩
      | some cm2 =>
        by_cases hlt : cm2.block_view < s.cur_view <;>
          by_cases hfin : nv ≤ s.cur_view
        · exact Or.inl (by simp [handleViewChange, hdu, hcm, hnv, if_pos hlt, hnv ▸ hfin])
        · exact Or.inr ⟨hfin, by simp [handleViewChange, hdu, hcm, hnv, if_pos hlt, hnv ▸ hfin]⟩
        · exact Or.inl (by simp [handleViewChange, hdu, hcm, hnv, if_neg hlt, hnv ▸ hfin])
        · exact Or.inr ⟨hfin, by simp [handleViewChange, hdu, hcm, hnv, if_neg hlt, hnv ▸ hfin]⟩
    · cases hcm : s.payload_commitment_and_metadata with
      | none =>
        by_cases hfin : nv ≤ s.cur_view
        · exact Or.inl (by simp [handleViewChange, hdu, hcm, hnv, hfin])
        · exact Or.inr ⟨hfin, by simp [handleViewChange, hdu, hcm, hnv, hfin]⟩
      | some cm2 =>
        by_cases hlt : cm2.block_view < s.cur_view <;>
          by_cases hfin : nv ≤ s.cur_view
        · exact Or.inl (by simp [handleViewChange, hdu, hcm, hnv, if_pos hlt, hfin])
        · exact Or.inr ⟨hfin, by simp [handleViewChange, hdu, hcm, hnv, if_pos hlt, hfin]⟩
        · exact Or.inl (by simp [handleViewChange, hdu, hcm, hnv, if_neg hlt, hfin])
        · exact Or.inr ⟨hfin, by simp [handleViewChange, hdu, hcm, hnv, if_neg hlt, hfin]⟩

/-! ## Concrete node environments and states, used by witnesses and
counterexamples -/

/-- A 4-node environment in which this node (key 1) is every view's leader,
holds stake, and all signatures and certificates validate.  The leaf digest
is `view * 10`. -/
def env0 : Env :=
  { pk := 1
    leader := fun _ => 1
    quorumHasStake := true
    timeoutHasStake := true
    totalNodes := 4
    nullBlockCommitment := fun _ => some 77
    validateSig := fun _ _ _ => true
    daCommittee := fun _ => [1]
    daCertValid := fun _ => true
    viewSyncCertValid := fun _ => true
    commitLeaf := fun l => l.view * 10
    appendVidOk := true
    updateHighQcOk := true }

/-- The stored parent leaf at view 1 (commitment 10), whose own parent
(commitment 0) is absent from the store. -/
def parentLeaf : Leaf :=
  { view := 1
    parent_commit := 0
    justify_qc := { view := 0, leaf_commit := 0 }
    upgrade_cert := none }

/-- This node's VID share for view 2. -/
def share0 : SignedVidDisperse :=
  { data := { view_number := 2, payload_commitment := 5, recipient_key := 1 }
    signature := 9 }

/-- A valid consecutive proposal for view 2 on top of `parentLeaf`. -/
def p0 : QuorumProposal :=
  { view_number := 2
    justify_qc := { view := 1, leaf_commit := 10 }
    payload_commitment := 5
    upgrade_certificate := none }

/-- A store at view 2 holding `parentLeaf`, this node's VID share and a
matching DA certificate for view 2: every `vote_if_able` condition holds. -/
def store0 : Consensus :=
  { locked_view := 0
    last_decided_view := 0
    high_qc := { view := 1, leaf_commit := 10 }
    saved_leaves := [(10, parentLeaf)]
    vid_shares := [(2, [(1, share0)])]
    saved_da_certs := [(2, { view_number := 2, payload_commit := 5 })]
    number_of_timeouts := 0 }

/-- The task at view 2 over `store0`, with no pending proposal. -/
def state0 : TaskState :=
  { cur_view := 2
    consensus := store0
    payload_commitment_and_metadata := none
    proposal_cert := none
    formed_upgrade_certificate := none
    decided_upgrade_cert := none
    version := 0
    current_proposal := none }

/-- Grandparent leaf at view 1 (commitment 10) for the three-chain store. -/
def leafA3 : Leaf :=
  { view := 1
    parent_commit := 0
    justify_qc := { view := 0, leaf_commit := 0 }
    upgrade_cert := none }

/-- Parent leaf at view 2 (commitment 20) on top of `leafA3`. -/
def leafA2 : Leaf :=
  { view := 2
    parent_commit := 10
    justify_qc := { view := 1, leaf_commit := 10 }
    upgrade_cert := none }

/-- A consecutive proposal for view 3 on top of `leafA2`. -/
def p1 : QuorumProposal :=
  { view_number := 3
    justify_qc := { view := 2, leaf_commit := 20 }
    payload_commitment := 5
    upgrade_certificate := none }

/-- A store with the two-leaf chain `leafA2 → leafA3`: processing `p1`
completes a three-chain and decides view 1. -/
def store1 : Consensus :=
  { locked_view := 0
    last_decided_view := 0
    high_qc := { view := 2, leaf_commit := 20 }
    saved_leaves := [(20, leafA2), (10, leafA3)]
    vid_shares := []
    saved_da_certs := []
    number_of_timeouts := 0 }

/-- The task at view 3 over `store1`. -/
def state1 : TaskState :=
  { cur_view := 3
    consensus := store1
    payload_commitment_and_metadata := none
    proposal_cert := none
    formed_upgrade_certificate := none
    decided_upgrade_cert := none
    version := 0
    current_proposal := none }

/-! ## Claim C2 -/

/-- The spec's vote conditions (§4.4, "The replica votes on
`current_proposal` for view `V` iff all hold"), written from the spec's
words for comparison against `vote_if_able`: stake in the quorum
membership; a VID-share map for the view containing this node's key; the
interim null-block rule under a decided upgrade certificate; a
signature-valid DA certificate for the view whose payload commitment
matches the proposal's; the proposed leaf's parent commitment matching the
stored parent leaf's commitment; and the VID-share persistence
succeeding. -/
def specVoteConds (env : Env) (s : TaskState) (p : QuorumProposal) : Bool :=
  env.quorumHasStake &&
  (match lookupA s.consensus.vid_shares p.view_number with
   | some shares => (lookupA shares env.pk).isSome
   | none => false) &&
  (match s.decided_upgrade_cert with
   | some cert =>
     !cert.inInterim s.cur_view ||
       (some p.payload_commitment == env.nullBlockCommitment env.totalNodes)
   | none => true) &&
  (match lookupA s.consensus.saved_da_certs p.view_number with
   | some cert =>
     env.daCertValid cert && (cert.payload_commit == p.payload_commitment)
   | none => false) &&
  (match lookupA s.consensus.saved_leaves p.justify_qc.leaf_commit with
   | some parent =>
     (Leaf.from_quorum_proposal p).parent_commit == env.commitLeaf parent
   | none => false) &&
  env.appendVidOk

/-- **C2.**  With a current proposal `p`, `vote_if_able` broadcasts a
`QuorumVoteSend` and returns success exactly when all of the spec's §4.4
vote conditions (`specVoteConds`) hold; anything it ever broadcasts is a
`QuorumVoteSend`. -/
theorem C2_vote_iff (env : Env) (s : TaskState) (p : QuorumProposal)
    (hp : s.current_proposal = some p) :
    (vote_if_able env s).isSome = specVoteConds env s p ∧
    ∀ o, vote_if_able env s = some o → o.isQuorumVote = true := by
  constructor
  · unfold vote_if_able specVoteConds
    rw [hp]
    repeat' split
    all_goals simp_all [bne, imp_iff_not_or, Bool.not_eq_true]
  · intro o ho
    obtain ⟨v, lc, rfl⟩ := vote_shape env s o ho
    rfl

/-- **C2, witness.**  At the concrete `env0`/`store0`/`p0`, every spec
condition holds and `vote_if_able` indeed votes. -/
theorem C2_vote_iff_witness :
    (vote_if_able env0 { state0 with current_proposal := some p0 }).isSome =
      specVoteConds env0 { state0 with current_proposal := some p0 } p0 ∧
    specVoteConds env0 { state0 with current_proposal := some p0 } p0 = true := by
  refine ⟨(C2_vote_iff env0 { state0 with current_proposal := some p0 } p0 rfl).1, ?_⟩
  decide

/-! ## Claim C1 -/

/-- **C1, counterexample.**  The claim asserts that when "an ancestor is
missing, `locked_view` and `last_decided_view` are unchanged".  Concretely:
`p0` has a consecutive parent link to `parentLeaf`, whose own ancestor
(commitment 0) is missing from the store, so the chain walk fails with a
missing ancestor — yet the handler still moves `locked_view` from 0 to 1,
because commit was already reached at the parent before the walk failed. -/
theorem C1_counterexample :
    p0.justify_qc.view + 1 = p0.view_number ∧
    lookupA state0.consensus.saved_leaves parentLeaf.parent_commit = none ∧
    state0.consensus.locked_view = 0 ∧
    (handle env0 state0 (HotShotEvent.QuorumProposalValidated p0)).1.consensus.locked_view
      = 1 := by
  decide

/-- **C1 (amended).**  On `QuorumProposalValidated(p)` with a consecutive
parent link (`p.justify_qc.view + 1 = p.view`), the handler walks ancestors
from the parent view down to (exclusive) the old `last_decided_view`:
(i) a non-consecutive parent link leaves `locked_view`/`last_decided_view`
unchanged and emits no `Decide`/`LeafDecided`; likewise (ii) when the
parent leaf is missing or (iii) sits at or below the old anchor;
(iv) when the parent `A2` is stored above the old anchor, the chain reaches
length 2 at `A2` and `locked_view` is set to `A2.view` — this persists even
if the walk breaks later (which refutes the claim's failure clause);
(v) when additionally `A2`'s parent `A3` is stored, consecutive and above
the old anchor, the chain reaches length 3 at `A3`: `last_decided_view` is
set to `A3.view`, `LeafDecided` and a `Decide` event carrying `A2`'s
`justify_qc` are published, and the store is garbage-collected to the new
anchor. -/
theorem C1_chain_walk (env : Env) (s : TaskState) (p : QuorumProposal) :
    (p.justify_qc.view + 1 ≠ p.view_number →
      (handle env s (HotShotEvent.QuorumProposalValidated p)).1.consensus.locked_view
        = s.consensus.locked_view ∧
      (handle env s (HotShotEvent.QuorumProposalValidated p)).1.consensus.last_decided_view
        = s.consensus.last_decided_view ∧
      ∀ o ∈ (handle env s (HotShotEvent.QuorumProposalValidated p)).2,
        o.isDecideLike = false) ∧
    (p.justify_qc.view + 1 = p.view_number →
      s.consensus.saved_leaves.find? (fun x => x.2.view == p.justify_qc.view) = none →
      (handle env s (HotShotEvent.QuorumProposalValidated p)).1.consensus.locked_view
        = s.consensus.locked_view ∧
      (handle env s (HotShotEvent.QuorumProposalValidated p)).1.consensus.last_decided_view
        = s.consensus.last_decided_view ∧
      ∀ o ∈ (handle env s (HotShotEvent.QuorumProposalValidated p)).2,
        o.isDecideLike = false) ∧
    (∀ e, p.justify_qc.view + 1 = p.view_number →
      s.consensus.saved_leaves.find? (fun x => x.2.view == p.justify_qc.view) = some e →
      e.2.view ≤ s.consensus.last_decided_view →
      (handle env s (HotShotEvent.QuorumProposalValidated p)).1.consensus.locked_view
        = s.consensus.locked_view ∧
      (handle env s (HotShotEvent.QuorumProposalValidated p)).1.consensus.last_decided_view
        = s.consensus.last_decided_view ∧
      ∀ o ∈ (handle env s (HotShotEvent.QuorumProposalValidated p)).2,
        o.isDecideLike = false) ∧
    (∀ e, p.justify_qc.view + 1 = p.view_number →
      s.consensus.saved_leaves.find? (fun x => x.2.view == p.justify_qc.view) = some e →
      s.consensus.last_decided_view < e.2.view →
      (handle env s (HotShotEvent.QuorumProposalValidated p)).1.consensus.locked_view
        = e.2.view) ∧
    (∀ e a3, p.justify_qc.view + 1 = p.view_number →
      s.consensus.saved_leaves.find? (fun x => x.2.view == p.justify_qc.view) = some e →
      s.consensus.last_decided_view < e.2.view →
      lookupA s.consensus.saved_leaves e.2.parent_commit = some a3 →
      a3.view + 1 = e.2.view →
      s.consensus.last_decided_view < a3.view →
      (handle env s (HotShotEvent.QuorumProposalValidated p)).1.consensus.last_decided_view
        = a3.view ∧
      (∃ ls, Output.LeafDecided ls ∈
        (handle env s (HotShotEvent.QuorumProposalValidated p)).2) ∧
      (∃ ls, Output.DecideEvent s.consensus.last_decided_view e.2.justify_qc ls ∈
        (handle env s (HotShotEvent.QuorumProposalValidated p)).2) ∧
      (∀ x ∈ (handle env s (HotShotEvent.QuorumProposalValidated p)).1.consensus.saved_leaves,
        a3.view ≤ x.2.view) ∧
      (∀ x ∈ (handle env s (HotShotEvent.QuorumProposalValidated p)).1.consensus.vid_shares,
        a3.view ≤ x.1) ∧
      (∀ x ∈ (handle env s (HotShotEvent.QuorumProposalValidated p)).1.consensus.saved_da_certs,
        a3.view ≤ x.1)) := by
  have heq : handle env s (HotShotEvent.QuorumProposalValidated p) =
      handleValidated env s p := rfl
  rw [heq]
  refine ⟨?_, ?_, ?_, ?_, ?_⟩
  · intro hv
    have hw : walkFor s p = initialWalkState s p := by simp [walkFor, hv]
    exact handleValidated_noop env s p (by rw [hw]; rfl) (by rw [hw]; rfl)
  · intro hv hf
    have hw := walkFor_of_consecutive s p hv
    rw [walk_start_missing s.consensus.saved_leaves p.justify_qc.view
      s.consensus.last_decided_view p.view_number _ hf] at hw
    exact handleValidated_noop env s p (by rw [hw]; rfl) (by rw [hw]; rfl)
  · intro e hv hf hterm
    have hw := walkFor_of_consecutive s p hv
    rw [walk_start_terminated s.consensus.saved_leaves p.justify_qc.view
      s.consensus.last_decided_view p.view_number _ e hf hterm] at hw
    exact handleValidated_noop env s p (by rw [hw]; rfl) (by rw [hw]; rfl)
  · intro e hv hf hterm
    have hev : e.2.view = p.justify_qc.view := by
      have := List.find?_some hf
      simpa using this
    have hw := walkFor_of_consecutive s p hv
    have hwc := walk_commit s.consensus.saved_leaves p.justify_qc.view
      s.consensus.last_decided_view p.view_number
      { initialWalkState s p with current_chain_length := 1 } e hf hterm rfl
      (by show p.view_number = e.2.view + 1; rw [hev]; exact hv.symm) rfl
    rw [handleValidated_commit env s p (by rw [hw]; exact hwc.1), hw]
    exact hwc.2.1
  · intro e a3 hv hf hterm ha3 ha3v ha3t
    have hev : e.2.view = p.justify_qc.view := by
      have := List.find?_some hf
      simpa using this
    have hw := walkFor_of_consecutive s p hv
    have hwd := walk_decide s.consensus.saved_leaves p.justify_qc.view
      s.consensus.last_decided_view p.view_number
      { initialWalkState s p with current_chain_length := 1 } e a3 hf hterm rfl
      (by show p.view_number = e.2.view + 1; rw [hev]; exact hv.symm) rfl
      ha3 ha3v ha3t
    have hdec : (walkFor s p).new_decide_reached = true := by rw [hw]; exact hwd.1
    have hanchor : (walkFor s p).new_anchor_view = a3.view := by rw [hw]; exact hwd.2.1
    have hqc : (walkFor s p).new_decide_qc = some e.2.justify_qc := by
      rw [hw]; exact hwd.2.2.2.2
    have hd := handleValidated_decide env s p hdec
    refine ⟨by rw [hd.1, hanchor], ⟨_, hd.2.1⟩, ⟨(walkFor s p).leafs_decided, ?_⟩, ?_, ?_, ?_⟩
    · have := hd.2.2.1
      rw [hqc] at this
      simpa using this
    · intro x hx
      have := hd.2.2.2.1 x hx
      rwa [hanchor] at this
    · intro x hx
      have := hd.2.2.2.2.1 x hx
      rwa [hanchor] at this
    · intro x hx
      have := hd.2.2.2.2.2 x hx
      rwa [hanchor] at this

/-- **C1, witness.**  The amended theorem applied to the concrete
three-chain store `store1` and proposal `p1`: the decide fires at view 1
with `leafA2`'s justify QC, and the store is garbage-collected to view 1. -/
theorem C1_chain_walk_witness :
    (handle env0 state1 (HotShotEvent.QuorumProposalValidated p1)).1.consensus.last_decided_view
      = leafA3.view ∧
    (∃ ls, Output.LeafDecided ls ∈
      (handle env0 state1 (HotShotEvent.QuorumProposalValidated p1)).2) ∧
    (∃ ls, Output.DecideEvent state1.consensus.last_decided_view leafA2.justify_qc ls ∈
      (handle env0 state1 (HotShotEvent.QuorumProposalValidated p1)).2) ∧
    (∀ x ∈ (handle env0 state1 (HotShotEvent.QuorumProposalValidated p1)).1.consensus.saved_leaves,
      leafA3.view ≤ x.2.view) ∧
    (∀ x ∈ (handle env0 state1 (HotShotEvent.QuorumProposalValidated p1)).1.consensus.vid_shares,
      leafA3.view ≤ x.1) ∧
    (∀ x ∈ (handle env0 state1 (HotShotEvent.QuorumProposalValidated p1)).1.consensus.saved_da_certs,
      leafA3.view ≤ x.1) :=
  (C1_chain_walk env0 state1 p1).2.2.2.2 (20, leafA2) leafA3 (by decide) (by decide)
    (by decide) (by decide) (by decide) (by decide)

/-! ## Claim C3 -/

theorem filter_len_le_one {α : Type} (f : α → Bool) (a : α) :
    (([a]).filter f).length ≤ 1 := by
  simpa using List.length_filter_le f [a]

/-- **C3, counterexample.**  The claim asserts at most one `QuorumVoteSend`
per view across any sequence of dispatched events.  Dispatching the same
validated proposal `p0` (for view 2) twice makes the node vote twice for
view 2: nothing in the handler records that a view has already been voted;
`vote_if_able`'s preconditions are all still satisfied the second time. -/
theorem C3_counterexample :
    p0.view_number = 2 ∧
    (((handleAll env0 state0 [HotShotEvent.QuorumProposalValidated p0,
        HotShotEvent.QuorumProposalValidated p0]).2).filter
      (Output.isQuorumVoteFor 2)).length = 2 := by
  decide

/-- **C3 (amended).**  Each single dispatched event causes at most one
`QuorumVoteSend` broadcast (every handler arm consults `vote_if_able` at
most once); but there is no cross-event deduplication, so repeated
proposal events for the same view can each produce a vote. -/
theorem C3_vote_per_event (env : Env) (s : TaskState) (e : HotShotEvent) :
    ((handle env s e).2.filter Output.isQuorumVote).length ≤ 1 := by
  cases e with
  | QuorumProposalRecv p hr =>
    cases hr with
    | none => simp [handle]
    | some cp =>
      simp only [handle]
      split
      · rename_i o heq
        obtain ⟨v, lc, rfl⟩ := vote_shape env _ o heq
        simp [Output.isQuorumVote]
      · simp
  | QuorumProposalValidated p =>
    show ((handleValidated env s p).2.filter Output.isQuorumVote).length ≤ 1
    simp only [handleValidated]
    repeat' split
    all_goals simp only [List.filter_append, List.nil_append, List.append_nil,
      List.filter_cons, List.filter_nil, Output.isQuorumVote, List.length_append]
    all_goals try simp
    all_goals (split <;> simp)
  | QCFormedLeft qc => simp [handle, Output.isQuorumVote]
  | QCFormedRight tc => simp [handle, Output.isQuorumVote]
  | UpgradeCertificateFormed cert =>
    simp only [handle]
    split <;> simp
  | DACertificateRecv cert =>
    simp only [handle]
    split
    all_goals simp only [List.filter_append, List.filter_cons, List.filter_nil,
      Output.isQuorumVote, List.length_append]
    all_goals try simp
    all_goals (split <;> simp)
  | VIDShareRecv d =>
    show ((handleVidShare env s d).2.filter Output.isQuorumVote).length ≤ 1
    simp only [handleVidShare]
    repeat' split
    all_goals simp only [List.filter_append, List.filter_cons, List.filter_nil,
      Output.isQuorumVote, List.length_append]
    all_goals try simp
    all_goals (split <;> simp)
  | ViewChange nv =>
    show ((handleViewChange env s nv).2.filter Output.isQuorumVote).length ≤ 1
    simp only [handleViewChange]
    repeat' split
    all_goals simp [Output.isQuorumVote]
  | Timeout v =>
    show ((handleTimeout env s v).2.filter Output.isQuorumVote).length ≤ 1
    simp only [handleTimeout]
    repeat' split
    all_goals simp [Output.isQuorumVote]
  | SendPayloadCommitmentAndMetadata pc bc md view fee =>
    simp only [handle]
    repeat' split
    all_goals simp [Output.isQuorumVote]
  | ViewSyncFinalizeCertificate2Recv c =>
    simp only [handle]
    repeat' split
    all_goals simp [Output.isQuorumVote]

/-! ## Claim C4 -/

/-- The task state with a high QC at view 5, about to regress. -/
def stateC4 : TaskState :=
  { state0 with consensus := { store0 with high_qc := { view := 5, leaf_commit := 0 } } }

/-- **C4, counterexample.**  `QCFormed(Left(qc))` assigns `high_qc := qc`
unconditionally (mod.rs line 692), so a stale certificate regresses
`high_qc.view` from 5 to 3, refuting "high_qc.view is non-decreasing". -/
theorem C4_counterexample :
    stateC4.consensus.high_qc.view = 5 ∧
    (handle env0 stateC4
      (HotShotEvent.QCFormedLeft { view := 3, leaf_commit := 0 })).1.consensus.high_qc.view
      = 3 := by
  decide

/-- **C4 (amended).**  `cur_view` and `last_decided_view` are non-decreasing
across every handled event; `high_qc`, however, is assigned the incoming
certificate unconditionally on `QCFormed(Left(qc))`, so `high_qc.view` can
decrease. -/
theorem C4_monotonicity (env : Env) (s : TaskState) (e : HotShotEvent) :
    s.cur_view ≤ (handle env s e).1.cur_view ∧
    s.consensus.last_decided_view ≤ (handle env s e).1.consensus.last_decided_view ∧
    ∀ qc, (handle env s (HotShotEvent.QCFormedLeft qc)).1.consensus.high_qc = qc := by
  refine ⟨?_, ?_, fun qc => rfl⟩
  · cases e with
    | QuorumProposalRecv p hr =>
      cases hr with
      | none => exact Nat.le_refl _
      | some cp =>
        simp only [handle]
        split <;> exact Nat.le_refl _
    | QuorumProposalValidated p =>
      show s.cur_view ≤ (handleValidated env s p).1.cur_view
      simp only [handleValidated]
      repeat' split
      all_goals exact Nat.le_refl _
    | ViewChange nv =>
      show s.cur_view ≤ (handleViewChange env s nv).1.cur_view
      rcases handleViewChange_cur_view env s nv with h1 | ⟨h1, h2⟩
      · rw [h1]
      · rw [h2]; exact Nat.le_of_lt (Nat.lt_of_not_le h1)
    | Timeout v =>
      show s.cur_view ≤ (handleTimeout env s v).1.cur_view
      simp only [handleTimeout]
      repeat' split
      all_goals exact Nat.le_refl _
    | VIDShareRecv d =>
      show s.cur_view ≤ (handleVidShare env s d).1.cur_view
      simp only [handleVidShare]
      repeat' split
      all_goals exact Nat.le_refl _
    | DACertificateRecv cert =>
      simp only [handle]
      split <;> exact Nat.le_refl _
    | UpgradeCertificateFormed cert =>
      simp only [handle]
      split <;> exact Nat.le_refl _
    | QCFormedLeft qc => exact Nat.le_refl _
    | QCFormedRight tc => exact Nat.le_refl _
    | SendPayloadCommitmentAndMetadata pc bc md view fee =>
      exact Nat.le_refl _
    | ViewSyncFinalizeCertificate2Recv c =>
      simp only [handle]
      repeat' split
      all_goals exact Nat.le_refl _
  · cases e with
    | QuorumProposalRecv p hr =>
      cases hr with
      | none => exact Nat.le_refl _
      | some cp =>
        simp only [handle]
        split <;> exact Nat.le_refl _
    | QuorumProposalValidated p =>
      show s.consensus.last_decided_view ≤
        (handleValidated env s p).1.consensus.last_decided_view
      have ha := walkFor_anchor_le s p
      simp only [handleValidated]
      repeat' split
      all_goals first
        | exact Nat.le_refl _
        | exact ha
    | ViewChange nv =>
      show s.consensus.last_decided_view ≤
        (handleViewChange env s nv).1.consensus.last_decided_view
      simp only [handleViewChange]
      repeat' split
      all_goals exact Nat.le_refl _
    | Timeout v =>
      show s.consensus.last_decided_view ≤
        (handleTimeout env s v).1.consensus.last_decided_view
      simp only [handleTimeout]
      repeat' split
      all_goals exact Nat.le_refl _
    | VIDShareRecv d =>
      show s.consensus.last_decided_view ≤
        (handleVidShare env s d).1.consensus.last_decided_view
      simp only [handleVidShare]
      repeat' split
      all_goals exact Nat.le_refl _
    | DACertificateRecv cert =>
      simp only [handle]
      split <;> exact Nat.le_refl _
    | UpgradeCertificateFormed cert =>
      simp only [handle]
      split <;> exact Nat.le_refl _
    | QCFormedLeft qc => exact Nat.le_refl _
    | QCFormedRight tc => exact Nat.le_refl _
    | SendPayloadCommitmentAndMetadata pc bc md view fee =>
      exact Nat.le_refl _
    | ViewSyncFinalizeCertificate2Recv c =>
      simp only [handle]
      repeat' split
      all_goals exact Nat.le_refl _

/-! ## Claim C5 -/

/-- **C5, counterexample.**  The claim says `Timeout(V)` with
`cur_view == V` still produces the timeout vote and events; the code's
guard is `cur_view >= view` (mod.rs line 869), so at `cur_view == V` the
event is ignored entirely. -/
theorem C5_counterexample :
    state0.cur_view = 2 ∧ env0.timeoutHasStake = true ∧
    handle env0 state0 (HotShotEvent.Timeout 2) = (state0, []) := by
  decide

/-- **C5 (amended).**  On `Timeout(V)`: if `cur_view ≥ V` the event is
ignored with no state change and no output; only when `cur_view < V` (and
the node has stake in the timeout membership) does the node cancel vote and
proposal polling at `V`, broadcast `TimeoutVoteSend{V}`, emit
`ViewTimeout{V}` and `ReplicaViewTimeout{V}`, and bump the
`number_of_timeouts` metric by 1. -/
theorem C5_timeout (env : Env) (s : TaskState) (view : Nat) :
    (view ≤ s.cur_view → handle env s (HotShotEvent.Timeout view) = (s, [])) ∧
    (s.cur_view < view → env.timeoutHasStake = true →
      handle env s (HotShotEvent.Timeout view) =
        ({ s with consensus := { s.consensus with
            number_of_timeouts := s.consensus.number_of_timeouts + 1 } },
         [Output.CancelPollForVotes view, Output.CancelPollForProposal view,
          Output.TimeoutVoteSend view, Output.ViewTimeout view,
          Output.ReplicaViewTimeout view])) := by
  constructor
  · intro h
    simp [handle, handleTimeout, h]
  · intro h hs
    simp [handle, handleTimeout, Nat.not_le.mpr h, hs]

/-- **C5, witness.**  At `cur_view = 2`, `Timeout(3)` fires: the metric is
bumped and the five side effects are emitted in source order. -/
theorem C5_timeout_witness :
    handle env0 state0 (HotShotEvent.Timeout 3) =
      ({ state0 with consensus := { state0.consensus with
          number_of_timeouts := state0.consensus.number_of_timeouts + 1 } },
       [Output.CancelPollForVotes 3, Output.CancelPollForProposal 3,
        Output.TimeoutVoteSend 3, Output.ViewTimeout 3,
        Output.ReplicaViewTimeout 3]) :=
  (C5_timeout env0 state0 3).2 (by decide) rfl

/-! ## Claim C10 -/

/-- **C10.**  On `Timeout(V)` with `cur_view < V` but no stake in the
timeout membership the handler returns early: nothing is broadcast or
emitted, no polling is cancelled and the metric is untouched. -/
theorem C10_timeout_no_stake (env : Env) (s : TaskState) (view : Nat)
    (h1 : s.cur_view < view) (h2 : env.timeoutHasStake = false) :
    handle env s (HotShotEvent.Timeout view) = (s, []) := by
  simp [handle, handleTimeout, Nat.not_le.mpr h1, h2]

/-- A stakeless-node environment. -/
def envNoStake : Env := { env0 with timeoutHasStake := false }

/-- **C10, witness.** -/
theorem C10_timeout_no_stake_witness :
    handle envNoStake state0 (HotShotEvent.Timeout 3) = (state0, []) :=
  C10_timeout_no_stake envNoStake state0 3 (by decide) rfl

/-! ## Claim C6 -/

/-- A stale commitment-and-metadata (block view 3, behind `cur_view = 5`). -/
def cm6 : CommitmentAndMetadata :=
  { commitment := 5, builder_commitment := 0, metadata := 0, fee := 0, block_view := 3 }

/-- The task at view 5 still holding `cm6`. -/
def stateC6 : TaskState :=
  { state0 with cur_view := 5, payload_commitment_and_metadata := some cm6 }

/-- **C6, counterexample.**  `ViewChange(5)` with `cur_view = 5` is not a
no-op: the handler drops the stale `payload_commitment_and_metadata`
(mod.rs lines 829–833) before the `update_view` idempotence check. -/
theorem C6_counterexample :
    stateC6.payload_commitment_and_metadata = some cm6 ∧
    5 ≤ stateC6.cur_view ∧
    (handle env0 stateC6 (HotShotEvent.ViewChange 5)).1.payload_commitment_and_metadata
      = none := by
  decide

/-- **C6 (amended).**  `ViewChange(new_view)` with `new_view ≤ cur_view`
leaves `cur_view` unchanged and emits no `ViewFinished`, and — provided the
decided upgrade certificate's `new_version_first_view` is not `new_view` —
leaves the version unchanged and emits no `VersionUpgrade`; but the stale
`payload_commitment_and_metadata` drop still happens, so idempotence only
holds for a commitment-and-metadata whose `block_view ≥ cur_view`. -/
theorem C6_viewchange_idempotent (env : Env) (s : TaskState) (nv : Nat)
    (h : nv ≤ s.cur_view) :
    (handle env s (HotShotEvent.ViewChange nv)).1.cur_view = s.cur_view ∧
    (∀ v, Output.ViewFinished v ∉ (handle env s (HotShotEvent.ViewChange nv)).2) ∧
    ((∀ c, s.decided_upgrade_cert = some c → nv ≠ c.data.new_version_first_view) →
      (handle env s (HotShotEvent.ViewChange nv)).1.version = s.version ∧
      ∀ v, Output.VersionUpgrade v ∉ (handle env s (HotShotEvent.ViewChange nv)).2) ∧
    (∀ cm, s.payload_commitment_and_metadata = some cm → s.cur_view ≤ cm.block_view →
      (handle env s (HotShotEvent.ViewChange nv)).1.payload_commitment_and_metadata
        = some cm) := by
  cases hdu : s.decided_upgrade_cert with
  | none =>
    cases hcm : s.payload_commitment_and_metadata with
    | none =>
      refine ⟨?_, ?_, fun hup => ⟨?_, ?_⟩, ?_⟩ <;>
        simp [handle, handleViewChange, hdu, hcm, h]
    | some cm2 =>
      by_cases hlt : cm2.block_view < s.cur_view
      · refine ⟨?_, ?_, fun hup => ⟨?_, ?_⟩, ?_⟩ <;>
          simp_all [handle, handleViewChange, hdu, hcm, hlt, h]
      · refine ⟨?_, ?_, fun hup => ⟨?_, ?_⟩, ?_⟩ <;>
          simp_all [handle, handleViewChange, hdu, hcm, h, if_neg hlt]
  | some c =>
    by_cases hnv : nv = c.data.new_version_first_view
    · have h' : c.data.new_version_first_view ≤ s.cur_view := hnv ▸ h
      cases hcm : s.payload_commitment_and_metadata with
      | none =>
        refine ⟨?_, ?_, fun hup => absurd hnv (hup c rfl), ?_⟩ <;>
          simp [handle, handleViewChange, hdu, hcm, hnv, h']
      | some cm2 =>
        by_cases hlt : cm2.block_view < s.cur_view
        · refine ⟨?_, ?_, fun hup => absurd hnv (hup c rfl), ?_⟩ <;>
            simp_all [handle, handleViewChange, hdu, hcm, hnv, h', if_pos hlt]
        · refine ⟨?_, ?_, fun hup => absurd hnv (hup c rfl), ?_⟩ <;>
            simp_all [handle, handleViewChange, hdu, hcm, hnv, h', if_neg hlt]
    · cases hcm : s.payload_commitment_and_metadata with
      | none =>
        refine ⟨?_, ?_, fun hup => ⟨?_, ?_⟩, ?_⟩ <;>
          simp [handle, handleViewChange, hdu, hcm, hnv, h]
      | some cm2 =>
        by_cases hlt : cm2.block_view < s.cur_view
        · refine ⟨?_, ?_, fun hup => ⟨?_, ?_⟩, ?_⟩ <;>
            simp_all [handle, handleViewChange, hdu, hcm, hnv, h, if_pos hlt]
        · refine ⟨?_, ?_, fun hup => ⟨?_, ?_⟩, ?_⟩ <;>
            simp_all [handle, handleViewChange, hdu, hcm, hnv, h, if_neg hlt]

/-- **C6, witness.**  `ViewChange(1)` at `cur_view = 2` with no decided
upgrade certificate and no pending commitment-and-metadata: fully
idempotent. -/
theorem C6_viewchange_idempotent_witness :
    (handle env0 state0 (HotShotEvent.ViewChange 1)).1.cur_view = state0.cur_view ∧
    (∀ v, Output.ViewFinished v ∉ (handle env0 state0 (HotShotEvent.ViewChange 1)).2) ∧
    ((∀ c, state0.decided_upgrade_cert = some c → 1 ≠ c.data.new_version_first_view) →
      (handle env0 state0 (HotShotEvent.ViewChange 1)).1.version = state0.version ∧
      ∀ v, Output.VersionUpgrade v ∉ (handle env0 state0 (HotShotEvent.ViewChange 1)).2) ∧
    (∀ cm, state0.payload_commitment_and_metadata = some cm →
      state0.cur_view ≤ cm.block_view →
      (handle env0 state0 (HotShotEvent.ViewChange 1)).1.payload_commitment_and_metadata
        = some cm) :=
  C6_viewchange_idempotent env0 state0 1 (by decide)

/-! ## Claim C7 -/

/-- **C7.**  `VIDShareRecv(s)`: a share more than one view old is rejected
with the whole state unchanged and no output; a share with
`view + 1 ≥ cur_view` that passes `validate_disperse` is inserted into
`vid_shares` under its view and recipient key. -/
theorem C7_vid_share (env : Env) (s : TaskState) (d : SignedVidDisperse) :
    (d.data.view_number + 1 < s.cur_view →
      handle env s (HotShotEvent.VIDShareRecv d) = (s, [])) ∧
    (s.cur_view ≤ d.data.view_number + 1 → validate_disperse env d = true →
      ∃ inner,
        lookupA (handle env s (HotShotEvent.VIDShareRecv d)).1.consensus.vid_shares
          d.data.view_number = some inner ∧
        lookupA inner d.data.recipient_key = some d) := by
  constructor
  · intro h
    simp [handle, handleVidShare, h]
  · intro h hval
    show ∃ inner,
      lookupA (handleVidShare env s d).1.consensus.vid_shares d.data.view_number
        = some inner ∧ lookupA inner d.data.recipient_key = some d
    simp only [handleVidShare]
    rw [if_neg (Nat.not_lt.mpr h),
      if_neg (by simp [hval] : ¬ ((!validate_disperse env d) = true))]
    repeat' split
    all_goals
      exact ⟨insertA ((lookupA s.consensus.vid_shares d.data.view_number).getD [])
        d.data.recipient_key d,
        lookupA_insertA_self _ _ _, lookupA_insertA_self _ _ _⟩

/-- **C7, witness.**  The concrete fresh share `share0` (view 2 at
`cur_view` 2) lands in the store under view 2 and key 1. -/
theorem C7_vid_share_witness :
    ∃ inner,
      lookupA (handle env0 state0
        (HotShotEvent.VIDShareRecv share0)).1.consensus.vid_shares
        share0.data.view_number = some inner ∧
      lookupA inner share0.data.recipient_key = some share0 :=
  (C7_vid_share env0 state0 share0).2 (by decide) (by decide)

/-! ## Claim C8 -/

/-- An environment whose storage rejects both writes. -/
def envBadStorage : Env := { env0 with appendVidOk := false, updateHighQcOk := false }

/-- **C8, counterexample.**  The claim says a failing `update_high_qc`
means "qc is not adopted as high_qc and no proposal is published"; the code
only logs the failure (mod.rs lines 686–689) and proceeds: the QC is
adopted and the Producer is invoked for `qc.view + 1` anyway. -/
theorem C8_counterexample :
    envBadStorage.updateHighQcOk = false ∧
    (handle envBadStorage state0
      (HotShotEvent.QCFormedLeft { view := 7, leaf_commit := 0 })).1.consensus.high_qc
      = { view := 7, leaf_commit := 0 } ∧
    Output.PublishProposal 8 ∈
      (handle envBadStorage state0
        (HotShotEvent.QCFormedLeft { view := 7, leaf_commit := 0 })).2 := by
  decide

/-- **C8 (amended).**  When `append_vid` fails, `vote_if_able` refuses and
no `QuorumVoteSend` is ever broadcast by any handler arm; but a failing
`update_high_qc` on `QCFormed(Left(qc))` is only logged — the QC is still
adopted as `high_qc` and the Producer is still invoked for `qc.view + 1`. -/
theorem C8_storage_failures (env : Env)
    (h1 : env.appendVidOk = false) (_h2 : env.updateHighQcOk = false) :
    (∀ s, vote_if_able env s = none) ∧
    (∀ (s : TaskState) (e : HotShotEvent) (v lc : Nat),
      Output.QuorumVoteSend v lc ∉ (handle env s e).2) ∧
    (∀ (s : TaskState) (qc : QC),
      (handle env s (HotShotEvent.QCFormedLeft qc)).1.consensus.high_qc = qc ∧
      (handle env s (HotShotEvent.QCFormedLeft qc)).2 =
        [Output.CancelPollForVotes qc.view,
         Output.PublishProposal (qc.view + 1)]) := by
  have hvote : ∀ s, vote_if_able env s = none := by
    intro s
    unfold vote_if_able
    repeat' split
    all_goals simp_all
  refine ⟨hvote, ?_, fun s qc => ⟨rfl, rfl⟩⟩
  intro s e v lc
  cases e with
  | QuorumProposalRecv p hr =>
    cases hr <;> simp [handle, hvote]
  | QuorumProposalValidated p =>
    show Output.QuorumVoteSend v lc ∉ (handleValidated env s p).2
    simp only [handleValidated]
    simp only [hvote]
    repeat' split
    all_goals simp
  | QCFormedLeft qc => simp [handle]
  | QCFormedRight tc => simp [handle]
  | UpgradeCertificateFormed cert =>
    simp only [handle]
    split <;> simp
  | DACertificateRecv cert =>
    simp [handle, hvote]
  | VIDShareRecv d =>
    show Output.QuorumVoteSend v lc ∉ (handleVidShare env s d).2
    simp only [handleVidShare]
    simp only [hvote]
    repeat' split
    all_goals simp
  | ViewChange nv =>
    show Output.QuorumVoteSend v lc ∉ (handleViewChange env s nv).2
    simp only [handleViewChange]
    repeat' split
    all_goals simp
  | Timeout view =>
    show Output.QuorumVoteSend v lc ∉ (handleTimeout env s view).2
    simp only [handleTimeout]
    repeat' split
    all_goals simp
  | SendPayloadCommitmentAndMetadata pc bc md view fee =>
    simp only [handle]
    repeat' split
    all_goals simp
  | ViewSyncFinalizeCertificate2Recv c =>
    simp only [handle]
    repeat' split
    all_goals simp

/-- **C8, witness.**  With failing storage, the concrete vote situation of
`store0` (which otherwise satisfies every vote condition) produces no vote,
while a formed QC is still adopted and followed by a proposal attempt. -/
theorem C8_storage_failures_witness :
    vote_if_able envBadStorage { state0 with current_proposal := some p0 } = none ∧
    (handle envBadStorage state0
      (HotShotEvent.QCFormedLeft { view := 4, leaf_commit := 0 })).1.consensus.high_qc
      = { view := 4, leaf_commit := 0 } :=
  ⟨(C8_storage_failures envBadStorage rfl rfl).1
      { state0 with current_proposal := some p0 },
   ((C8_storage_failures envBadStorage rfl rfl).2.2 state0
      { view := 4, leaf_commit := 0 }).1⟩

/-! ## Claim C9 -/

/-- The task holding a timeout certificate as `proposal_cert`, making both
Producer branches of `SendPayloadCommitmentAndMetadata` fire. -/
def stateC9 : TaskState :=
  { state0 with proposal_cert := some (ViewChangeEvidence.timeout { view_number := 1 }) }

/-- **C9, counterexample.**  The claim says the Producer is invoked at most
once per `SendPayloadCommitmentAndMetadata` event, the `proposal_cert`
branch firing only when the leader/high-QC branch does not.  In the code
the two branches are independent `if`s (mod.rs lines 941–970): with
`leader(2) = pk`, `high_qc.view + 1 = 2` and a matching timeout
certificate, one event invokes the Producer twice. -/
theorem C9_counterexample :
    (((handle env0 stateC9
        (HotShotEvent.SendPayloadCommitmentAndMetadata 5 0 0 2 0)).2).filter
      Output.isPublish).length = 2 := by
  decide

/-- **C9 (amended).**  `SendPayloadCommitmentAndMetadata(pc, bc, md, view,
fee)` stores the commitment-and-metadata; the Producer is invoked by the
leader/high-QC branch and, independently (not "or else"), by the
`proposal_cert` branch — so up to twice per event, and it is invoked at
most once when either branch is disabled. -/
theorem C9_send_payload (env : Env) (s : TaskState) (pc bc md view fee : Nat) :
    (handle env s
      (HotShotEvent.SendPayloadCommitmentAndMetadata pc bc md view fee)).1.payload_commitment_and_metadata
      = some { commitment := pc, builder_commitment := bc, metadata := md,
               fee := fee, block_view := view } ∧
    (((handle env s
        (HotShotEvent.SendPayloadCommitmentAndMetadata pc bc md view fee)).2).filter
      Output.isPublish).length ≤ 2 ∧
    (s.proposal_cert = none →
      (((handle env s
          (HotShotEvent.SendPayloadCommitmentAndMetadata pc bc md view fee)).2).filter
        Output.isPublish).length ≤ 1) ∧
    ((env.leader view == env.pk && s.consensus.high_qc.view + 1 == view) = false →
      (((handle env s
          (HotShotEvent.SendPayloadCommitmentAndMetadata pc bc md view fee)).2).filter
        Output.isPublish).length ≤ 1) := by
  refine ⟨rfl, ?_, ?_, ?_⟩
  · simp only [handle]
    repeat' split
    all_goals simp [Output.isPublish]
  · intro h
    simp only [handle, h]
    repeat' split
    all_goals simp_all [Output.isPublish]
  · intro h
    simp only [handle, h]
    repeat' split
    all_goals simp_all [Output.isPublish]

/-- **C9, witness.**  With no `proposal_cert`, the event stores the
commitment-and-metadata and publishes at most once. -/
theorem C9_send_payload_witness :
    (handle env0 state0
      (HotShotEvent.SendPayloadCommitmentAndMetadata 5 0 0 2 0)).1.payload_commitment_and_metadata
      = some { commitment := 5, builder_commitment := 0, metadata := 0,
               fee := 0, block_view := 2 } ∧
    (((handle env0 state0
        (HotShotEvent.SendPayloadCommitmentAndMetadata 5 0 0 2 0)).2).filter
      Output.isPublish).length ≤ 1 :=
  ⟨(C9_send_payload env0 state0 5 0 0 2 0).1,
   (C9_send_payload env0 state0 5 0 0 2 0).2.2.1 rfl⟩

end HotShot
